import Mathlib

/-!
Verification of the dify-router distributed route plane.

This development shallowly embeds the Go source of the repository:
`internal/gateway/route_manager.go` (route catalog, reconciliation,
matcher, admin mutations), the dispatcher and HTTP handlers
(`router.go`), the authentication middleware, the sandbox pool and
load balancer, and the configuration model.

Go `map[string]T` values are embedded as association lists with
overwrite-in-place insertion and lookup on the first matching key
(hash keys are unique, so the list order only carries iteration
order).  Go `string` operations used by the source are re-implemented
structurally over `String.data` so that every definition is
executable by the kernel.  Wall-clock samples (`time.Now().Unix()`,
`time.Now().UnixNano()`) are passed in as explicit parameters.  Store
(Redis) calls are embedded as operations on an explicit `StoreState`;
transport errors, which the source only logs, are not modelled.
-/

namespace DifyRouter

/-- `RouteConfig` from `internal/gateway/types.go`.  The
`map[string]string` metadata field is carried as an association list. -/
structure RouteConfig where
  id : String
  path : String
  method : String
  handler : String
  sandboxType : String
  code : String
  target : String
  timeout : Int
  metadata : List (String × String)
  createdAt : Int
  updatedAt : Int
  version : Int
deriving DecidableEq, Repr

/-- `RouteEvent` from `internal/gateway/types.go`. -/
structure RouteEvent where
  eventID : String
  eventType : String
  routeID : String
  routeData : Option RouteConfig
  timestamp : Int
  source : String
deriving DecidableEq, Repr

/-- `SandboxInstance` from `internal/gateway/types.go`. -/
structure SandboxInstance where
  id : String
  url : String
  type' : String
  status : String
  load : Int
  lastPing : Int
deriving DecidableEq, Repr

/-- Lookup in an embedded Go map: the value at the first matching key. -/
def mapLookup {α : Type} (m : List (String × α)) (k : String) : Option α :=
  match m with
  | [] => none
  | (k', v) :: rest => if k' = k then some v else mapLookup rest k

/-- Go map assignment `m[k] = v`: overwrite in place, or append. -/
def mapInsert {α : Type} (m : List (String × α)) (k : String) (v : α) :
    List (String × α) :=
  match m with
  | [] => [(k, v)]
  | (k', v') :: rest =>
      if k' = k then (k, v) :: rest else (k', v') :: mapInsert rest k v

/-- Go `delete(m, k)`. -/
def mapErase {α : Type} (m : List (String × α)) (k : String) :
    List (String × α) :=
  match m with
  | [] => []
  | (k', v') :: rest =>
      if k' = k then mapErase rest k else (k', v') :: mapErase rest k

/-- Redis `SADD`: add a member to a set unless already present. -/
def setAdd (s : List String) (member : String) : List String :=
  if member ∈ s then s else s ++ [member]

/-- Go `strings.HasPrefix`, computed structurally on the character list. -/
def goStartsWith (s pre : String) : Bool :=
  List.isPrefixOf pre.data s.data

/-- Go `strings.TrimPrefix`, computed structurally on the character list. -/
def goTrimLeading (s pre : String) : String :=
  if goStartsWith s pre then String.mk (s.data.drop pre.data.length) else s

/-- Go `strings.Contains(s, string(c))` for a one-character needle. -/
def goContainsChar (s : String) (c : Char) : Bool :=
  s.data.contains c

/-- Split a character list on a separator, Go `strings.Split` style:
`splitOnChar '/' "/a/b"` gives `["", "a", "b"]` (as character lists). -/
def splitOnChar (sep : Char) : List Char → List (List Char)
  | [] => [[]]
  | x :: xs =>
      match splitOnChar sep xs with
      | [] => [[]]
      | seg :: segs =>
          if x = sep then [] :: seg :: segs else (x :: seg) :: segs

/-- A gorilla/mux template segment of the form `{name}`. -/
def isMuxVar (seg : List Char) : Bool :=
  seg.head? = some '{' && seg.getLast? = some '}'

/-- One segment of a mux template against one request segment: a
`{name}` variable matches any non-empty segment (the default variable
pattern is `[^/]+`); a literal segment must be equal. -/
def muxSegMatches (tseg pseg : List Char) : Bool :=
  if isMuxVar tseg then !pseg.isEmpty else tseg == pseg

/-- `matchPathWithParams` from `route_manager.go`.  The source builds a
one-route `mux.Router` with `route.Path(routePath).Methods("GET")` and
matches a GET request for `requestPath` against it.  Modelled gorilla/mux
semantics for templates made of literal and `{name}` segments: the
template must begin with a slash (otherwise mux rejects it and nothing
matches), both paths are split on `/`, the segment counts must agree and
the segments must match pairwise. -/
def matchPathWithParams (routePath requestPath : String) : Bool :=
  if routePath.data.head? = some '/' then
    let ts := splitOnChar '/' routePath.data
    let ps := splitOnChar '/' requestPath.data
    ts.length == ps.length &&
      (List.zip ts ps).all (fun tp => muxSegMatches tp.1 tp.2)
  else false

/-- Anchored matching of a wildcard pattern: models
`regexp.MatchString("^" ++ pattern ++ "$", path)` where `pattern` is
`strings.ReplaceAll(route.Path, "*", ".*")`, for route paths whose only
regular-expression metacharacter is `*`.  A `*` matches any (possibly
empty) sequence of characters; every other character matches itself. -/
def globMatch : List Char → List Char → Bool
  | [], s => s.isEmpty
  | '*' :: ps, s => (List.tails s).any (fun suf => globMatch ps suf)
  | _ :: _, [] => false
  | p :: ps, c :: s => p == c && globMatch ps s

/-- `calculateMatchPriority` from `route_manager.go`: the priority
ladder 100 (exact) / 90 (parameterized) / 80 (prefix) / 70 (wildcard),
with 0 for a method mismatch or no match. -/
def calculateMatchPriority (route : RouteConfig) (path method : String) : Int :=
  if route.method ≠ method ∧ route.method ≠ "ANY" then 0
  else if route.path = path then 100
  else if matchPathWithParams route.path path = true then 90
  else if goStartsWith path (route.path ++ "/") = true then 80
  else if (goContainsChar route.path '*' && globMatch route.path.data path.data) = true then 70
  else 0

/-- Loop body of `matchRoute`: keep the candidate whose priority
strictly exceeds the best priority seen so far. -/
def matchStep (path method : String) (acc : Option RouteConfig × Int)
    (route : RouteConfig) : Option RouteConfig × Int :=
  let priority := calculateMatchPriority route path method
  if acc.2 < priority then (some route, priority) else acc

/-- `matchRoute` from `route_manager.go`: fold the loop body over the
cached routes, starting from no match and priority 0. -/
def matchRoute (cache : List (String × RouteConfig)) (path method : String) :
    Option RouteConfig :=
  (List.foldl (matchStep path method) (none, 0) (cache.map Prod.snd)).1

/-- The per-replica catalog state of `RouteManager`: the in-memory
route cache, the parallel per-id version map, and the highest global
config version observed (`lastConfigUpdate`). -/
structure CacheState where
  routeCache : List (String × RouteConfig)
  routeVersions : List (String × Int)
  lastConfigUpdate : Int
deriving DecidableEq, Repr

/-- The shared store keys used by the catalog:
`gateway:config:version` (missing or unparseable reads as 0, matching
the source's ignored `ParseInt` error), `gateway:routes:updated`
(member list of the marker set) and `gateway:routes` (hash entries
that deserialize; an entry whose JSON does not unmarshal is skipped by
every reader and is modelled as absent). -/
structure StoreState where
  configVersion : Int
  updatedSet : List String
  routesHash : List (String × RouteConfig)
deriving DecidableEq, Repr

/-- The local per-id version, `rm.routeVersions[routeID]`: a missing
key reads as the Go zero value 0. -/
def localVersion (c : CacheState) (id : String) : Int :=
  (mapLookup c.routeVersions id).getD 0

/-- Loop body of `loadRoutesIncremental` (route_manager.go:110-140):
skip empty members; a `DELETE:`-prefixed tombstone removes the id from
the cache and version map when cached; any other member reads the
authoritative entry from the `gateway:routes` hash and applies it only
when its version strictly exceeds the local per-id version. -/
def applyUpdatedMember (hash : List (String × RouteConfig))
    (c : CacheState) (routeID : String) : CacheState :=
  if routeID = "" then c
  else if goStartsWith routeID "DELETE:" then
    let actualRouteID := goTrimLeading routeID "DELETE:"
    if (mapLookup c.routeCache actualRouteID).isSome then
      { c with routeCache := mapErase c.routeCache actualRouteID,
               routeVersions := mapErase c.routeVersions actualRouteID }
    else c
  else
    match mapLookup hash routeID with
    | some route =>
        if localVersion c routeID < route.version then
          { c with routeCache := mapInsert c.routeCache routeID route,
                   routeVersions := mapInsert c.routeVersions routeID route.version }
        else c
    | none => c

/-- `loadAllRoutesFromRedis` (route_manager.go:159-177): replace the
cache and the version map wholesale from the `gateway:routes` hash. -/
def loadAllRoutesFromRedis (store : StoreState) (c : CacheState) : CacheState :=
  { c with routeCache := store.routesHash,
           routeVersions := store.routesHash.map (fun p => (p.1, p.2.version)) }

/-- `handleCreateEvent` (route_manager.go:267-290): missing route data
is an error; otherwise overwrite the cache and version map entry for
the target id (the embedded route's id, falling back to the event's
route id when the former is empty), unconditionally. -/
def handleCreateEvent (c : CacheState) (event : RouteEvent) :
    Except String CacheState :=
  match event.routeData with
  | none => .error "missing route data for CREATE event"
  | some routeData =>
      let targetRouteID := if routeData.id = "" then event.routeID else routeData.id
      .ok { c with routeCache := mapInsert c.routeCache targetRouteID routeData,
                   routeVersions := mapInsert c.routeVersions targetRouteID routeData.version }

/-- `handleUpdateEvent` (route_manager.go:292-322): both the
route-exists and route-missing branches overwrite the cache and the
version map entry unconditionally. -/
def handleUpdateEvent (c : CacheState) (event : RouteEvent) :
    Except String CacheState :=
  match event.routeData with
  | none => .error "missing route data for UPDATE event"
  | some routeData =>
      let targetRouteID := if routeData.id = "" then event.routeID else routeData.id
      if (mapLookup c.routeCache targetRouteID).isSome then
        .ok { c with routeCache := mapInsert c.routeCache targetRouteID routeData,
                     routeVersions := mapInsert c.routeVersions targetRouteID routeData.version }
      else
        .ok { c with routeCache := mapInsert c.routeCache targetRouteID routeData,
                     routeVersions := mapInsert c.routeVersions targetRouteID routeData.version }

/-- `handleDeleteEvent` (route_manager.go:324-352): remove the entry
keyed by the event's route id; when absent, fall back to the embedded
route data's id. -/
def handleDeleteEvent (c : CacheState) (event : RouteEvent) : CacheState :=
  let targetRouteID := event.routeID
  if (mapLookup c.routeCache targetRouteID).isSome then
    { c with routeCache := mapErase c.routeCache targetRouteID,
             routeVersions := mapErase c.routeVersions targetRouteID }
  else
    match event.routeData with
    | some routeData =>
        if routeData.id ≠ "" ∧ (mapLookup c.routeCache routeData.id).isSome then
          { c with routeCache := mapErase c.routeCache routeData.id,
                   routeVersions := mapErase c.routeVersions routeData.id }
        else c
    | none => c

/-- Combined replica + store state for the admin mutation protocol.
`stream` is the content appended to the `gateway:route:events` stream
by `PublishRouteEvent`; `redisEnabled` is the degraded-mode flag. -/
structure RMState where
  redisEnabled : Bool
  store : StoreState
  cache : CacheState
  stream : List RouteEvent
deriving DecidableEq, Repr

/-- `updateConfigVersion` (route_manager.go:380-392): overwrite
`gateway:config:version` with a fresh nanosecond stamp when the store
is enabled. -/
def updateConfigVersion (s : RMState) (newVersion : Int) : RMState :=
  if s.redisEnabled then
    { s with store := { s.store with configVersion := newVersion } }
  else s

/-- `loadRoutesIncremental` (route_manager.go:71-156) on the combined
state: return unless enabled and the global config version strictly
exceeds `lastConfigUpdate`; then either apply each member of the
update-marker set and delete the marker key, or — when the marker set
is empty — fall back to a full load; finally record the observed
global version. -/
def loadRoutesIncremental (s : RMState) : RMState :=
  if s.redisEnabled = false then s
  else if s.store.configVersion ≤ s.cache.lastConfigUpdate then s
  else if s.store.updatedSet.isEmpty = false then
    let c := s.store.updatedSet.foldl (applyUpdatedMember s.store.routesHash) s.cache
    { s with cache := { c with lastConfigUpdate := s.store.configVersion },
             store := { s.store with updatedSet := [] } }
  else
    let c := loadAllRoutesFromRedis s.store s.cache
    { s with cache := { c with lastConfigUpdate := s.store.configVersion } }

/-- `validateRouteConfiguration` (route_manager.go:649-684). -/
def validateRouteConfiguration (route : RouteConfig) : Except String Unit :=
  if route.id = "" then .error "route ID is required"
  else if route.path = "" then .error "route path is required"
  else if route.method = "" then .error "route method is required"
  else if route.handler = "" then .error "route handler is required"
  else if route.handler ≠ "sandbox" ∧ route.handler ≠ "proxy" ∧ route.handler ≠ "static" then
    .error ("invalid handler type: " ++ route.handler)
  else if route.handler = "sandbox" ∧
      route.sandboxType ≠ "python" ∧ route.sandboxType ≠ "nodejs" ∧ route.sandboxType ≠ "go" then
    .error ("invalid sandbox type: " ++ route.sandboxType)
  else .ok ()

/-- `AddRoute` (route_manager.go:456-521).  `nowSec` is the
`time.Now().Unix()` sample, `nowNs` the `time.Now().UnixNano()` sample
used for the route version, and `cfgNs` the separate nanosecond sample
taken inside `updateConfigVersion`.  Validate; stamp timestamps and
version; when the store is enabled write the hash entry, mark the
update set, bump the config version and publish a CREATE event; then
update the in-memory cache and version map. -/
def AddRoute (s : RMState) (route : RouteConfig) (nowSec nowNs cfgNs : Int) :
    Except String RMState :=
  match validateRouteConfiguration route with
  | .error e => .error e
  | .ok _ =>
      let route := { route with
        createdAt := if route.createdAt = 0 then nowSec else route.createdAt,
        updatedAt := nowSec,
        version := nowNs }
      let s1 :=
        if s.redisEnabled then
          updateConfigVersion
            { s with store := { s.store with
                routesHash := mapInsert s.store.routesHash route.id route,
                updatedSet := setAdd s.store.updatedSet route.id } } cfgNs
        else s
      let s2 :=
        if s.redisEnabled then
          { s1 with stream := s1.stream ++
              [{ eventID := "create-" ++ toString nowSec, eventType := "CREATE",
                 routeID := route.id, routeData := some route,
                 timestamp := nowSec, source := "route-manager" }] }
        else s1
      .ok { s2 with cache := { s2.cache with
        routeCache := mapInsert s2.cache.routeCache route.id route,
        routeVersions := mapInsert s2.cache.routeVersions route.id route.version } }

/-- `UpdateRoute` (route_manager.go:524-594): refuse when the URL id is
not cached, when validation fails, or when the body id differs from the
URL id — all before any write; otherwise stamp, persist, publish an
UPDATE event and overwrite the cache and version map. -/
def UpdateRoute (s : RMState) (routeID : String) (newRoute : RouteConfig)
    (nowSec nowNs cfgNs : Int) : Except String RMState :=
  if (mapLookup s.cache.routeCache routeID).isSome = false then
    .error ("route " ++ routeID ++ " not found")
  else match validateRouteConfiguration newRoute with
  | .error e => .error e
  | .ok _ =>
      if routeID ≠ newRoute.id then .error "route ID cannot be changed"
      else
        let newRoute := { newRoute with updatedAt := nowSec, version := nowNs }
        let s1 :=
          if s.redisEnabled then
            updateConfigVersion
              { s with store := { s.store with
                  routesHash := mapInsert s.store.routesHash routeID newRoute,
                  updatedSet := setAdd s.store.updatedSet routeID } } cfgNs
          else s
        let s2 :=
          if s.redisEnabled then
            { s1 with stream := s1.stream ++
                [{ eventID := "update-" ++ toString nowSec, eventType := "UPDATE",
                   routeID := routeID, routeData := some newRoute,
                   timestamp := nowSec, source := "route-manager" }] }
          else s1
        .ok { s2 with cache := { s2.cache with
          routeCache := mapInsert s2.cache.routeCache routeID newRoute,
          routeVersions := mapInsert s2.cache.routeVersions routeID newRoute.version } }

/-- `DeleteRoute` (route_manager.go:597-646): no existence check; when
the store is enabled delete the hash entry, add a `DELETE:<id>`
tombstone to the marker set, bump the config version and publish a
DELETE event; always remove the id from the cache and version map and
return without error. -/
def DeleteRoute (s : RMState) (routeID : String) (nowSec cfgNs : Int) :
    Except String RMState :=
  let s1 :=
    if s.redisEnabled then
      updateConfigVersion
        { s with store := { s.store with
            routesHash := mapErase s.store.routesHash routeID,
            updatedSet := setAdd s.store.updatedSet ("DELETE:" ++ routeID) } } cfgNs
    else s
  let s2 :=
    if s.redisEnabled then
      { s1 with stream := s1.stream ++
          [{ eventID := "delete-" ++ toString nowSec, eventType := "DELETE",
             routeID := routeID, routeData := none,
             timestamp := nowSec, source := "route-manager" }] }
    else s1
  .ok { s2 with cache := { s2.cache with
    routeCache := mapErase s2.cache.routeCache routeID,
    routeVersions := mapErase s2.cache.routeVersions routeID } }

/-- An HTTP response as written by the handlers: a status code and the
JSON body. -/
structure HTTPResponse where
  status : Nat
  body : String
deriving DecidableEq, Repr

/-- `encoding/json` marshalling of `gin.H\x7b"error": msg\x7d` for a
message without JSON escapes. -/
def jsonError (msg : String) : String :=
  "\x7b\"error\":\"" ++ msg ++ "\"\x7d"

/-- `updateRouteHandler` (router.go): a parsed body is handed to
`UpdateRoute`; any error is answered with 400, success with 200.  The
state is unchanged on error. -/
def updateRouteHandler (s : RMState) (id : String) (route : RouteConfig)
    (nowSec nowNs cfgNs : Int) : Nat × RMState :=
  match UpdateRoute s id route nowSec nowNs cfgNs with
  | .error _ => (400, s)
  | .ok s' => (200, s')

/-- `deleteRouteHandler` (router.go): errors from `DeleteRoute` answer
400, success answers 200. -/
def deleteRouteHandler (s : RMState) (id : String) (nowSec cfgNs : Int) :
    Nat × RMState :=
  match DeleteRoute s id nowSec cfgNs with
  | .error _ => (400, s)
  | .ok s' => (200, s')

/-- `leastConnections` (balancer.go): first instance whose load is
strictly below the running minimum, which starts at the maximum 64-bit
signed integer. -/
def leastConnections (instances : List SandboxInstance) : Option SandboxInstance :=
  (instances.foldl
    (fun acc inst =>
      if inst.load < acc.2 then (some inst, inst.load) else acc)
    ((none : Option SandboxInstance), (9223372036854775807 : Int))).1

/-- `LoadBalancer.Select` (balancer.go).  `rand.Intn n` is modelled by
`pick % n` for the caller-supplied sample `pick`; the source's
increment of the winner's load counter is a mutation of pool state not
tracked here. -/
def lbSelect (strategy : String) (instances : List SandboxInstance) (pick : Nat) :
    Option SandboxInstance :=
  if instances.isEmpty then none
  else if strategy = "least-connections" then leastConnections instances
  else if strategy = "round-robin" then instances[pick % instances.length]?
  else if strategy = "random" then instances[pick % instances.length]?
  else leastConnections instances

/-- The healthy candidates of a type, as filtered by
`GetHealthyInstance` (sandbox pool). -/
def healthyCandidates (instances : List SandboxInstance) (sandboxType : String) :
    List SandboxInstance :=
  instances.filter (fun i => i.type' == sandboxType && i.status == "healthy")

/-- `GetHealthyInstance`: error when no healthy instance of the
requested type exists, otherwise the load balancer's pick (`none`
never occurs for a non-empty candidate list). -/
def GetHealthyInstance (instances : List SandboxInstance) (strategy : String)
    (pick : Nat) (sandboxType : String) : Except String (Option SandboxInstance) :=
  let candidates := healthyCandidates instances sandboxType
  if candidates.isEmpty then
    .error ("no healthy " ++ sandboxType ++ " sandbox available")
  else .ok (lbSelect strategy candidates pick)

/-- Outcome of the outbound POST in `forwardToSandbox`: the request
construction can fail (answered 500), the transport can fail (answered
502), or the sandbox answers and its status and body are streamed
back. -/
inductive ForwardOutcome where
  | requestBuildError (msg : String)
  | transportError (msg : String)
  | success (status : Nat) (body : String)
deriving DecidableEq, Repr

/-- Response mapping of `forwardToSandbox` (router.go:205-254). -/
def forwardToSandbox (fwd : ForwardOutcome) : HTTPResponse :=
  match fwd with
  | .requestBuildError msg => ⟨500, jsonError msg⟩
  | .transportError msg => ⟨502, jsonError ("sandbox unavailable: " ++ msg)⟩
  | .success status body => ⟨status, body⟩

/-- `handleSandboxRequest` (router.go:183-203): a failed healthy-instance
lookup answers 503 with the error; otherwise the request is forwarded. -/
def handleSandboxRequest (instances : List SandboxInstance) (strategy : String)
    (pick : Nat) (route : RouteConfig) (fwd : ForwardOutcome) : HTTPResponse :=
  match GetHealthyInstance instances strategy pick route.sandboxType with
  | .error msg => ⟨503, jsonError msg⟩
  | .ok _ => forwardToSandbox fwd

/-- `dynamicRouteHandler` (router.go:157-181): no matching route is
404; a matched route dispatches on its handler, with proxy and static
unimplemented (501) and anything else 500. -/
def dynamicRouteHandler (cache : List (String × RouteConfig))
    (instances : List SandboxInstance) (strategy : String) (pick : Nat)
    (path method : String) (fwd : ForwardOutcome) : HTTPResponse :=
  match matchRoute cache path method with
  | none => ⟨404, jsonError "route not found"⟩
  | some route =>
      if route.handler = "sandbox" then
        handleSandboxRequest instances strategy pick route fwd
      else if route.handler = "proxy" then
        ⟨501, jsonError "proxy handler not implemented"⟩
      else if route.handler = "static" then
        ⟨501, jsonError "static handler not implemented"⟩
      else ⟨500, jsonError "unknown handler type"⟩

/-- A Go `interface\x7b\x7d` value as stored in the execution envelope
map. -/
inductive GoValue where
  | int (n : Int)
  | str (s : String)
  | bool (b : Bool)
deriving DecidableEq, Repr

/-- The `"timeout"` field of the execution envelope built by
`handleSandboxRequest`: `executionReq["timeout"] = route.Timeout`, a Go
`int`. -/
def executionReqTimeoutField (route : RouteConfig) : GoValue :=
  GoValue.int route.timeout

/-- The client timeout computed at the top of `forwardToSandbox`
(router.go:206-209): start from 30 seconds and replace it with the
envelope's timeout whenever the type assertion
`reqData["timeout"].(int)` succeeds. -/
def forwardClientTimeoutSeconds (timeoutField : GoValue) : Int :=
  match timeoutField with
  | GoValue.int t => t
  | _ => 30

/-- The outbound client timeout for a dispatched sandbox route: the
envelope field fed through `forwardToSandbox`'s computation. -/
def sandboxClientTimeoutSeconds (route : RouteConfig) : Int :=
  forwardClientTimeoutSeconds (executionReqTimeoutField route)

/-- The `app` section of the configuration (static/config.go). -/
structure AppConfig where
  port : Int
  debug : Bool
  gatewayKey : String
  adminKey : String
  key : String
deriving DecidableEq, Repr

/-- `authenticateGatewayRequest` (router.go:144-155): the expected key
is `gateway_key`, falling back to the legacy `key`; the request passes
only when that key is non-empty and equals the `X-Api-Key` header. -/
def authenticateGatewayRequest (config : AppConfig) (apiKey : String) : Bool :=
  let expectedKey := if config.gatewayKey = "" then config.key else config.gatewayKey
  !(expectedKey == "") && expectedKey == apiKey

/-- Result of an authentication middleware: abort with a status and
body, or pass the request on. -/
inductive AuthOutcome where
  | abort (status : Nat) (body : String)
  | next
deriving DecidableEq, Repr

/-- `GatewayAuth` (middleware): abort 401 when the expected key
(`gateway_key`, falling back to `key`) is empty or differs from the
header. -/
def GatewayAuth (config : AppConfig) (apiKey : String) : AuthOutcome :=
  let expectedKey := if config.gatewayKey = "" then config.key else config.gatewayKey
  if expectedKey = "" ∨ expectedKey ≠ apiKey then
    .abort 401 (jsonError "invalid gateway api key")
  else .next

/-- `AdminAuth` (middleware): abort 401 when the expected key
(`admin_key`, falling back to `key`) is empty or differs from the
header. -/
def AdminAuth (config : AppConfig) (apiKey : String) : AuthOutcome :=
  let expectedKey := if config.adminKey = "" then config.key else config.adminKey
  if expectedKey = "" ∨ expectedKey ≠ apiKey then
    .abort 401 (jsonError "invalid admin api key")
  else .next

/-- `authenticatedRouteHandler` (router.go:131-141): the gateway
listener answers 401 before routing when
`authenticateGatewayRequest` fails. -/
def authenticatedRouteHandler (config : AppConfig) (apiKey : String)
    (cache : List (String × RouteConfig)) (instances : List SandboxInstance)
    (strategy : String) (pick : Nat) (path method : String)
    (fwd : ForwardOutcome) : HTTPResponse :=
  if authenticateGatewayRequest config apiKey = false then
    ⟨401, jsonError "invalid gateway api key"⟩
  else dynamicRouteHandler cache instances strategy pick path method fwd

/-- Key-by-key invariant: every cached route sits under its own id. -/
def cacheKeyedById (c : CacheState) : Prop :=
  ∀ k r, mapLookup c.routeCache k = some r → r.id = k

/-- The store hash analogue: every entry of `gateway:routes` sits under
its route's id (all writers of the hash use `route.ID` as the field). -/
def hashKeyedById (h : List (String × RouteConfig)) : Prop :=
  ∀ k r, mapLookup h k = some r → r.id = k

/-- The claimed catalog invariant: the cache and the per-id version map
have the same key set, and every cached route's id maps to its own
version. -/
def cacheVersionAligned (c : CacheState) : Prop :=
  (∀ k, (mapLookup c.routeCache k).isSome ↔ (mapLookup c.routeVersions k).isSome) ∧
  (∀ k r, mapLookup c.routeCache k = some r →
    mapLookup c.routeVersions r.id = some r.version)

/-- The inductive catalog invariant. -/
def catalogInvariant (c : CacheState) : Prop :=
  cacheKeyedById c ∧ cacheVersionAligned c

/-- Fixture route: an exact `/api/hello` sandbox route. -/
def wRoute : RouteConfig :=
  ⟨"hello", "/api/hello", "GET", "sandbox", "python", "print(1)", "", 5, [], 0, 0, 1⟩

/-- Fixture route: a wildcard `/api/*` sandbox route. -/
def wRouteWild : RouteConfig :=
  ⟨"wild", "/api/*", "GET", "sandbox", "python", "", "", 0, [], 0, 0, 2⟩

/-- Fixture route keyed `abc`, version 3. -/
def wRouteAbc : RouteConfig :=
  ⟨"abc", "/abc", "GET", "sandbox", "python", "", "", 0, [], 0, 0, 3⟩

/-- Fixture catalog holding the two `/api` routes. -/
def wCache : List (String × RouteConfig) := [("hello", wRoute), ("wild", wRouteWild)]

/-- Fixture replica cache holding route `abc` at version 3. -/
def wCacheState : CacheState := ⟨[("abc", wRouteAbc)], [("abc", 3)], 0⟩

/-- Fixture empty replica cache. -/
def wEmptyCache : CacheState := ⟨[], [], 0⟩

/-- Fixture empty store. -/
def wEmptyStore : StoreState := ⟨0, [], []⟩

/-- Fixture manager state: store enabled, everything empty. -/
def wRM : RMState := ⟨true, wEmptyStore, wEmptyCache, []⟩

/-- Fixture route keyed `new1`, version 5, as stored in the hash. -/
def wNewRoute : RouteConfig :=
  ⟨"new1", "/new", "GET", "sandbox", "python", "", "", 0, [], 0, 0, 5⟩

/-- Fixture CREATE event carrying version 10 of route `route1`. -/
def wEvCreate : RouteEvent :=
  ⟨"e1", "CREATE", "route1", some { wRoute with id := "route1", version := 10 }, 0, "src"⟩

/-- Fixture UPDATE event carrying the older version 5 of route `route1`. -/
def wEvUpdate : RouteEvent :=
  ⟨"e2", "UPDATE", "route1", some { wRoute with id := "route1", version := 5 }, 0, "src"⟩

theorem mapLookup_mapInsert {α : Type} (m : List (String × α)) (k k' : String) (v : α) :
    mapLookup (mapInsert m k v) k' = if k = k' then some v else mapLookup m k' := by
  induction m with
  | nil => simp [mapInsert, mapLookup]
  | cons head tail ih =>
      obtain ⟨hk, hv⟩ := head
      by_cases h1 : hk = k
      · subst h1
        by_cases h2 : hk = k'
        · subst h2; simp [mapInsert, mapLookup]
        · simp [mapInsert, mapLookup, h2, Ne.symm h2]
      · by_cases h2 : hk = k'
        · subst h2
          have : k ≠ hk := fun h => h1 h.symm
          simp [mapInsert, mapLookup, h1, this]
        · simp [mapInsert, mapLookup, h1, h2, ih]

theorem mapLookup_mapErase {α : Type} (m : List (String × α)) (k k' : String) :
    mapLookup (mapErase m k) k' = if k = k' then none else mapLookup m k' := by
  induction m with
  | nil => simp [mapErase, mapLookup]
  | cons head tail ih =>
      obtain ⟨hk, hv⟩ := head
      by_cases h1 : hk = k
      · subst h1
        by_cases h2 : hk = k'
        · subst h2; simp [mapErase, mapLookup, ih]
        · simp [mapErase, mapLookup, h2, ih]
      · by_cases h2 : hk = k'
        · subst h2
          have : k ≠ hk := fun h => h1 h.symm
          simp [mapErase, mapLookup, h1, this, ih]
        · simp [mapErase, mapLookup, h1, h2, ih]

theorem mapLookup_mapval {α β : Type} (f : α → β) (m : List (String × α)) (k : String) :
    mapLookup (m.map (fun p => (p.1, f p.2))) k = (mapLookup m k).map f := by
  induction m with
  | nil => simp [mapLookup]
  | cons head tail ih =>
      obtain ⟨hk, hv⟩ := head
      by_cases h1 : hk = k
      · subst h1; simp [mapLookup]
      · simp [mapLookup, h1, ih]

theorem calculateMatchPriority_nonneg (route : RouteConfig) (path method : String) :
    0 ≤ calculateMatchPriority route path method := by
  unfold calculateMatchPriority
  split_ifs <;> norm_num

theorem matchFold_spec (path method : String) (routes : List RouteConfig) :
    ∀ acc : Option RouteConfig × Int,
      acc.2 ≤ (List.foldl (matchStep path method) acc routes).2 ∧
      (∀ r ∈ routes,
        calculateMatchPriority r path method ≤ (List.foldl (matchStep path method) acc routes).2) ∧
      ((List.foldl (matchStep path method) acc routes = acc ∧
          ∀ r ∈ routes, calculateMatchPriority r path method ≤ acc.2) ∨
        ∃ r ∈ routes,
          (List.foldl (matchStep path method) acc routes).1 = some r ∧
          (List.foldl (matchStep path method) acc routes).2 = calculateMatchPriority r path method ∧
          acc.2 < (List.foldl (matchStep path method) acc routes).2) := by
  induction routes with
  | nil => intro acc; simp
  | cons head tail ih =>
      intro acc
      by_cases hlt : acc.2 < calculateMatchPriority head path method
      · have hstep : matchStep path method acc head =
            (some head, calculateMatchPriority head path method) := by
          simp [matchStep, hlt]
        rw [List.foldl_cons, hstep]
        obtain ⟨ha, hb, hc⟩ := ih (some head, calculateMatchPriority head path method)
        refine ⟨le_trans (le_of_lt hlt) ha, ?_, ?_⟩
        · intro r hr
          rcases List.mem_cons.mp hr with h | h
          · subst h; exact ha
          · exact hb r h
        · rcases hc with ⟨heq, _⟩ | ⟨r, hr, h1, h2, h3⟩
          · right
            exact ⟨head, List.mem_cons_self head tail,
              by rw [heq], by rw [heq], by rw [heq]; exact hlt⟩
          · right
            exact ⟨r, List.mem_cons_of_mem head hr, h1, h2, lt_trans hlt h3⟩
      · have hstep : matchStep path method acc head = acc := by
          simp [matchStep, hlt]
        rw [List.foldl_cons, hstep]
        obtain ⟨ha, hb, hc⟩ := ih acc
        refine ⟨ha, ?_, ?_⟩
        · intro r hr
          rcases List.mem_cons.mp hr with h | h
          · subst h; exact le_trans (not_lt.mp hlt) ha
          · exact hb r h
        · rcases hc with ⟨heq, hall⟩ | ⟨r, hr, h1, h2, h3⟩
          · left
            refine ⟨heq, ?_⟩
            intro r hr
            rcases List.mem_cons.mp hr with h | h
            · subst h; exact not_lt.mp hlt
            · exact hall r h
          · right
            exact ⟨r, List.mem_cons_of_mem head hr, h1, h2, h3⟩

theorem catalogInvariant_insert (c : CacheState) (k : String) (r : RouteConfig)
    (lcu : Int) (hinv : catalogInvariant c) (hid : r.id = k) :
    catalogInvariant ⟨mapInsert c.routeCache k r, mapInsert c.routeVersions k r.version, lcu⟩ := by
  obtain ⟨hkey, hsame, hver⟩ := hinv
  refine ⟨?_, ?_, ?_⟩
  · intro k' r' h
    rw [show (⟨mapInsert c.routeCache k r, mapInsert c.routeVersions k r.version, lcu⟩ :
        CacheState).routeCache = mapInsert c.routeCache k r from rfl,
      mapLookup_mapInsert] at h
    by_cases hk : k = k'
    · rw [if_pos hk] at h
      cases h
      rw [hid]; exact hk
    · rw [if_neg hk] at h
      exact hkey k' r' h
  · intro k'
    rw [show (⟨mapInsert c.routeCache k r, mapInsert c.routeVersions k r.version, lcu⟩ :
        CacheState).routeCache = mapInsert c.routeCache k r from rfl,
      show (⟨mapInsert c.routeCache k r, mapInsert c.routeVersions k r.version, lcu⟩ :
        CacheState).routeVersions = mapInsert c.routeVersions k r.version from rfl,
      mapLookup_mapInsert, mapLookup_mapInsert]
    by_cases hk : k = k'
    · simp [hk]
    · simp only [if_neg hk]; exact hsame k'
  · intro k' r' h
    rw [show (⟨mapInsert c.routeCache k r, mapInsert c.routeVersions k r.version, lcu⟩ :
        CacheState).routeCache = mapInsert c.routeCache k r from rfl,
      mapLookup_mapInsert] at h
    rw [show (⟨mapInsert c.routeCache k r, mapInsert c.routeVersions k r.version, lcu⟩ :
        CacheState).routeVersions = mapInsert c.routeVersions k r.version from rfl,
      mapLookup_mapInsert]
    by_cases hk : k = k'
    · rw [if_pos hk] at h
      cases h
      rw [if_pos (by rw [hid])]
    · rw [if_neg hk] at h
      have hid' : r'.id = k' := hkey k' r' h
      rw [if_neg (by rw [hid']; exact hk)]
      exact hver k' r' h

theorem catalogInvariant_erase (c : CacheState) (k : String) (lcu : Int)
    (hinv : catalogInvariant c) :
    catalogInvariant ⟨mapErase c.routeCache k, mapErase c.routeVersions k, lcu⟩ := by
  obtain ⟨hkey, hsame, hver⟩ := hinv
  refine ⟨?_, ?_, ?_⟩
  · intro k' r' h
    rw [show (⟨mapErase c.routeCache k, mapErase c.routeVersions k, lcu⟩ :
        CacheState).routeCache = mapErase c.routeCache k from rfl, mapLookup_mapErase] at h
    by_cases hk : k = k'
    · rw [if_pos hk] at h; cases h
    · rw [if_neg hk] at h; exact hkey k' r' h
  · intro k'
    rw [show (⟨mapErase c.routeCache k, mapErase c.routeVersions k, lcu⟩ :
        CacheState).routeCache = mapErase c.routeCache k from rfl,
      show (⟨mapErase c.routeCache k, mapErase c.routeVersions k, lcu⟩ :
        CacheState).routeVersions = mapErase c.routeVersions k from rfl,
      mapLookup_mapErase, mapLookup_mapErase]
    by_cases hk : k = k'
    · simp [hk]
    · simp only [if_neg hk]; exact hsame k'
  · intro k' r' h
    rw [show (⟨mapErase c.routeCache k, mapErase c.routeVersions k, lcu⟩ :
        CacheState).routeCache = mapErase c.routeCache k from rfl, mapLookup_mapErase] at h
    rw [show (⟨mapErase c.routeCache k, mapErase c.routeVersions k, lcu⟩ :
        CacheState).routeVersions = mapErase c.routeVersions k from rfl, mapLookup_mapErase]
    by_cases hk : k = k'
    · rw [if_pos hk] at h; cases h
    · rw [if_neg hk] at h
      have hid' : r'.id = k' := hkey k' r' h
      rw [if_neg (by rw [hid']; exact hk)]
      exact hver k' r' h

theorem catalogInvariant_applyUpdatedMember (hash : List (String × RouteConfig))
    (c : CacheState) (m : String) (hinv : catalogInvariant c)
    (hhash : hashKeyedById hash) :
    catalogInvariant (applyUpdatedMember hash c m) := by
  by_cases h1 : m = ""
  · simpa [applyUpdatedMember, h1] using hinv
  · by_cases h2 : goStartsWith m "DELETE:" = true
    · by_cases h3 : (mapLookup c.routeCache (goTrimLeading m "DELETE:")).isSome = true
      · have := catalogInvariant_erase c (goTrimLeading m "DELETE:") c.lastConfigUpdate hinv
        simpa [applyUpdatedMember, h1, h2, h3] using this
      · simpa [applyUpdatedMember, h1, h2, h3] using hinv
    · cases hl : mapLookup hash m with
      | none => simpa [applyUpdatedMember, h1, h2, hl] using hinv
      | some route =>
          by_cases h4 : localVersion c m < route.version
          · have := catalogInvariant_insert c m route c.lastConfigUpdate hinv (hhash m route hl)
            simpa [applyUpdatedMember, h1, h2, hl, h4] using this
          · simpa [applyUpdatedMember, h1, h2, hl, h4] using hinv

theorem catalogInvariant_foldMembers (hash : List (String × RouteConfig))
    (members : List String) :
    ∀ c : CacheState, catalogInvariant c → hashKeyedById hash →
      catalogInvariant (members.foldl (applyUpdatedMember hash) c) := by
  induction members with
  | nil => intro c h _; simpa using h
  | cons head tail ih =>
      intro c h hh
      rw [List.foldl_cons]
      exact ih _ (catalogInvariant_applyUpdatedMember hash c head h hh) hh

theorem catalogInvariant_loadAll (store : StoreState) (c : CacheState)
    (hhash : hashKeyedById store.routesHash) :
    catalogInvariant (loadAllRoutesFromRedis store c) := by
  refine ⟨?_, ?_, ?_⟩
  · intro k r h
    exact hhash k r h
  · intro k
    rw [show (loadAllRoutesFromRedis store c).routeVersions =
      store.routesHash.map (fun p => (p.1, p.2.version)) from rfl, mapLookup_mapval,
      show (loadAllRoutesFromRedis store c).routeCache = store.routesHash from rfl]
    cases mapLookup store.routesHash k <;> simp
  · intro k r h
    have hid : r.id = k := hhash k r h
    rw [show (loadAllRoutesFromRedis store c).routeVersions =
      store.routesHash.map (fun p => (p.1, p.2.version)) from rfl, mapLookup_mapval, hid]
    rw [show mapLookup (loadAllRoutesFromRedis store c).routeCache k =
      mapLookup store.routesHash k from rfl] at h
    rw [h]
    rfl

/-- C1: for every fixed catalog and request pair, `matchRoute` returns
a route whose `calculateMatchPriority` is maximal among all cached
routes, and returns null exactly when every cached route's priority is
0; the priority ladder itself is `calculateMatchPriority` (0 on method
mismatch, 100 exact, 90 parameterized, 80 prefix, 70 wildcard, else 0),
embedded above directly from the source. -/
theorem matchRoute_returns_max_priority (cache : List (String × RouteConfig))
    (path method : String) :
    (matchRoute cache path method = none ↔
      ∀ r ∈ cache.map Prod.snd, calculateMatchPriority r path method = 0) ∧
    (∀ r, matchRoute cache path method = some r →
      r ∈ cache.map Prod.snd ∧
      ∀ rr ∈ cache.map Prod.snd,
        calculateMatchPriority rr path method ≤ calculateMatchPriority r path method) := by
  obtain ⟨ha, hb, hc⟩ :=
    matchFold_spec path method (cache.map Prod.snd) ((none : Option RouteConfig), (0 : Int))
  constructor
  · constructor
    · intro hnone r hr
      rcases hc with ⟨_, hall⟩ | ⟨r', _, h1, _, _⟩
      · exact le_antisymm (hall r hr) (calculateMatchPriority_nonneg r path method)
      · rw [show matchRoute cache path method =
          (List.foldl (matchStep path method) ((none : Option RouteConfig), (0 : Int))
            (cache.map Prod.snd)).1 from rfl, h1] at hnone
        cases hnone
    · intro hall
      rcases hc with ⟨heq, _⟩ | ⟨r', hr', _, h2, h3⟩
      · rw [show matchRoute cache path method =
          (List.foldl (matchStep path method) ((none : Option RouteConfig), (0 : Int))
            (cache.map Prod.snd)).1 from rfl, heq]
      · exfalso
        rw [h2, hall r' hr'] at h3
        exact absurd h3 (by norm_num)
  · intro r hsome
    rcases hc with ⟨heq, _⟩ | ⟨r', hr', h1, h2, _⟩
    · rw [show matchRoute cache path method =
        (List.foldl (matchStep path method) ((none : Option RouteConfig), (0 : Int))
          (cache.map Prod.snd)).1 from rfl, heq] at hsome
      cases hsome
    · rw [show matchRoute cache path method =
        (List.foldl (matchStep path method) ((none : Option RouteConfig), (0 : Int))
          (cache.map Prod.snd)).1 from rfl, h1] at hsome
      cases hsome
      refine ⟨hr', ?_⟩
      intro rr hrr
      rw [← h2]
      exact hb rr hrr

/-- Witness for C1: on the catalog holding the exact `/api/hello` route
and the wildcard `/api/*` route, a GET of `/api/hello` resolves to the
exact route and its priority dominates every cached route's. -/
theorem matchRoute_returns_max_priority_witness :
    wRoute ∈ wCache.map Prod.snd ∧
    ∀ rr ∈ wCache.map Prod.snd,
      calculateMatchPriority rr "/api/hello" "GET" ≤
        calculateMatchPriority wRoute "/api/hello" "GET" :=
  (matchRoute_returns_max_priority wCache "/api/hello" "GET").2 wRoute (by decide)

/-- C2: per member of the update-marker set, incremental reconciliation
(a) removes a tombstoned id from both the cache and the version map
(given the catalog keeps no version entry without a cache entry),
(b) overwrites the cache and version map from the store hash when the
stored route's version strictly exceeds the local per-id version, and
(c) otherwise leaves the local state unchanged. -/
theorem loadRoutesIncremental_member_semantics (hash : List (String × RouteConfig))
    (c : CacheState) (m : String) :
    (goStartsWith m "DELETE:" = true →
      ((mapLookup c.routeVersions (goTrimLeading m "DELETE:")).isSome →
        (mapLookup c.routeCache (goTrimLeading m "DELETE:")).isSome) →
      mapLookup (applyUpdatedMember hash c m).routeCache (goTrimLeading m "DELETE:") = none ∧
      mapLookup (applyUpdatedMember hash c m).routeVersions (goTrimLeading m "DELETE:") = none) ∧
    (goStartsWith m "DELETE:" = false → m ≠ "" →
      ∀ route, mapLookup hash m = some route → localVersion c m < route.version →
        applyUpdatedMember hash c m =
          ⟨mapInsert c.routeCache m route, mapInsert c.routeVersions m route.version,
            c.lastConfigUpdate⟩) ∧
    (goStartsWith m "DELETE:" = false → m ≠ "" →
      (∀ route, mapLookup hash m = some route → route.version ≤ localVersion c m) →
      applyUpdatedMember hash c m = c) := by
  refine ⟨?_, ?_, ?_⟩
  · intro hpre hsub
    have hne : m ≠ "" := by
      intro h
      subst h
      exact absurd hpre (by decide)
    by_cases hex : (mapLookup c.routeCache (goTrimLeading m "DELETE:")).isSome = true
    · have hres : applyUpdatedMember hash c m =
          { c with routeCache := mapErase c.routeCache (goTrimLeading m "DELETE:"),
                   routeVersions := mapErase c.routeVersions (goTrimLeading m "DELETE:") } := by
        simp [applyUpdatedMember, hne, hpre, hex]
      rw [hres]
      constructor
      · rw [show ({ c with
            routeCache := mapErase c.routeCache (goTrimLeading m "DELETE:"),
            routeVersions := mapErase c.routeVersions (goTrimLeading m "DELETE:") } :
            CacheState).routeCache = mapErase c.routeCache (goTrimLeading m "DELETE:") from rfl,
          mapLookup_mapErase, if_pos rfl]
      · rw [show ({ c with
            routeCache := mapErase c.routeCache (goTrimLeading m "DELETE:"),
            routeVersions := mapErase c.routeVersions (goTrimLeading m "DELETE:") } :
            CacheState).routeVersions = mapErase c.routeVersions (goTrimLeading m "DELETE:") from rfl,
          mapLookup_mapErase, if_pos rfl]
    · have hres : applyUpdatedMember hash c m = c := by
        simp [applyUpdatedMember, hne, hpre, hex]
      rw [hres]
      have hcache : mapLookup c.routeCache (goTrimLeading m "DELETE:") = none :=
        Option.not_isSome_iff_eq_none.mp hex
      have hvers : mapLookup c.routeVersions (goTrimLeading m "DELETE:") = none := by
        by_cases hv : (mapLookup c.routeVersions (goTrimLeading m "DELETE:")).isSome = true
        · exact absurd (hsub hv) hex
        · exact Option.not_isSome_iff_eq_none.mp hv
      exact ⟨hcache, hvers⟩
  · intro hpre hne route hl hv
    simp [applyUpdatedMember, hne, hpre, hl, hv]
  · intro hpre hne hle
    cases hl : mapLookup hash m with
    | none => simp [applyUpdatedMember, hne, hpre, hl]
    | some route =>
        have hnv : ¬ localVersion c m < route.version := not_lt.mpr (hle route hl)
        simp [applyUpdatedMember, hne, hpre, hl, hnv]

/-- Witness for C2: the tombstone `DELETE:abc` empties both maps for
`abc`; a marker `new1` whose stored version 5 beats the absent local
version installs the route; a marker `abc` whose stored version ties
the local version 3 leaves the replica untouched. -/
theorem loadRoutesIncremental_member_semantics_witness :
    (mapLookup (applyUpdatedMember [] wCacheState "DELETE:abc").routeCache
        (goTrimLeading "DELETE:abc" "DELETE:") = none ∧
      mapLookup (applyUpdatedMember [] wCacheState "DELETE:abc").routeVersions
        (goTrimLeading "DELETE:abc" "DELETE:") = none) ∧
    applyUpdatedMember [("new1", wNewRoute)] wCacheState "new1" =
      ⟨mapInsert wCacheState.routeCache "new1" wNewRoute,
        mapInsert wCacheState.routeVersions "new1" wNewRoute.version,
        wCacheState.lastConfigUpdate⟩ ∧
    applyUpdatedMember [("abc", wRouteAbc)] wCacheState "abc" = wCacheState :=
  ⟨(loadRoutesIncremental_member_semantics [] wCacheState "DELETE:abc").1
      (by decide) (by decide),
    (loadRoutesIncremental_member_semantics [("new1", wNewRoute)] wCacheState "new1").2.1
      (by decide) (by decide) wNewRoute (by decide) (by decide),
    (loadRoutesIncremental_member_semantics [("abc", wRouteAbc)] wCacheState "abc").2.2
      (by decide) (by decide)
      (by
        intro route h
        rw [show mapLookup [("abc", wRouteAbc)] "abc" = some wRouteAbc from rfl] at h
        cases h
        decide)⟩

theorem AddRoute_ok_cache (s : RMState) (route : RouteConfig) (nowSec nowNs cfgNs : Int)
    (s' : RMState) (h : AddRoute s route nowSec nowNs cfgNs = .ok s') :
    s'.cache = ⟨mapInsert s.cache.routeCache route.id
        { route with
          createdAt := (if route.createdAt = 0 then nowSec else route.createdAt),
          updatedAt := nowSec, version := nowNs },
      mapInsert s.cache.routeVersions route.id nowNs,
      s.cache.lastConfigUpdate⟩ := by
  cases hval : validateRouteConfiguration route with
  | error e =>
      simp [AddRoute, hval] at h
  | ok u =>
      by_cases hen : s.redisEnabled
      · simp [AddRoute, hval, hen, updateConfigVersion] at h
        rw [← h]
      · simp [AddRoute, hval, hen] at h
        rw [← h]

theorem UpdateRoute_ok_cache (s : RMState) (routeID : String) (newRoute : RouteConfig)
    (nowSec nowNs cfgNs : Int) (s' : RMState)
    (h : UpdateRoute s routeID newRoute nowSec nowNs cfgNs = .ok s') :
    routeID = newRoute.id ∧
    s'.cache = ⟨mapInsert s.cache.routeCache routeID
        { newRoute with updatedAt := nowSec, version := nowNs },
      mapInsert s.cache.routeVersions routeID nowNs,
      s.cache.lastConfigUpdate⟩ := by
  by_cases h1 : (mapLookup s.cache.routeCache routeID).isSome = false
  · simp [UpdateRoute, h1] at h
  · cases hval : validateRouteConfiguration newRoute with
    | error e => simp [UpdateRoute, h1, hval] at h
    | ok u =>
        by_cases h2 : routeID ≠ newRoute.id
        · simp [UpdateRoute, h1, hval, h2] at h
        · refine ⟨not_not.mp h2, ?_⟩
          by_cases hen : s.redisEnabled
          · simp [UpdateRoute, h1, hval, h2, hen, updateConfigVersion] at h
            rw [← h]
          · simp [UpdateRoute, h1, hval, h2, hen] at h
            rw [← h]

theorem DeleteRoute_ok_cache (s : RMState) (routeID : String) (nowSec cfgNs : Int) :
    ∃ s', DeleteRoute s routeID nowSec cfgNs = .ok s' ∧
      s'.cache = ⟨mapErase s.cache.routeCache routeID,
        mapErase s.cache.routeVersions routeID, s.cache.lastConfigUpdate⟩ ∧
      (s.redisEnabled = true → s'.stream = s.stream ++
        [⟨"delete-" ++ toString nowSec, "DELETE", routeID, none, nowSec, "route-manager"⟩]) ∧
      (s.redisEnabled = false → s'.stream = s.stream) := by
  by_cases hen : s.redisEnabled
  · refine ⟨_, rfl, ?_, ?_, ?_⟩
    · simp [DeleteRoute, hen, updateConfigVersion]
    · intro _
      simp [DeleteRoute, hen, updateConfigVersion]
    · intro hfalse
      rw [hen] at hfalse
      cases hfalse
  · refine ⟨_, rfl, ?_, ?_, ?_⟩
    · simp [DeleteRoute, hen]
    · intro htrue
      exact absurd htrue hen
    · intro _
      simp [DeleteRoute, hen]

/-- Counterexample to C3: the event handlers apply versions
unconditionally, so after a CREATE event installs version 10 of
`route1`, a stale UPDATE event carrying version 5 is still applied —
the applied version sequence 10, 5 is decreasing. -/
theorem applied_version_monotonicity_counterexample :
    ∃ c1, handleCreateEvent wEmptyCache wEvCreate = .ok c1 ∧
      localVersion c1 "route1" = 10 ∧
      ∃ c2, handleUpdateEvent c1 wEvUpdate = .ok c2 ∧
        localVersion c2 "route1" = 5 ∧ (5 : Int) < 10 :=
  ⟨_, rfl, by decide, _, rfl, by decide, by norm_num⟩

/-- C3 amended: versions applied by incremental reconciliation never
decrease the local per-id version (a marker overwrites only when the
stored version strictly exceeds the local one), and an admin AddRoute
or UpdateRoute does not decrease it provided the sampled nanosecond
clock is at least the target's current local version; CREATE/UPDATE
event handling, by contrast, overwrites unconditionally and can apply
a lower version. -/
theorem applied_versions_monotone_amended :
    (∀ (hash : List (String × RouteConfig)) (c : CacheState) (m : String),
      goStartsWith m "DELETE:" = false →
      ∀ id, localVersion c id ≤ localVersion (applyUpdatedMember hash c m) id) ∧
    (∀ (s : RMState) (route : RouteConfig) (nowSec nowNs cfgNs : Int) (s' : RMState),
      AddRoute s route nowSec nowNs cfgNs = .ok s' →
      localVersion s.cache route.id ≤ nowNs →
      ∀ id, localVersion s.cache id ≤ localVersion s'.cache id) ∧
    (∀ (s : RMState) (routeID : String) (newRoute : RouteConfig)
      (nowSec nowNs cfgNs : Int) (s' : RMState),
      UpdateRoute s routeID newRoute nowSec nowNs cfgNs = .ok s' →
      localVersion s.cache routeID ≤ nowNs →
      ∀ id, localVersion s.cache id ≤ localVersion s'.cache id) := by
  refine ⟨?_, ?_, ?_⟩
  · intro hash c m hpre id
    by_cases h0 : m = ""
    · simp [applyUpdatedMember, h0]
    · cases hl : mapLookup hash m with
      | none => simp [applyUpdatedMember, h0, hpre, hl]
      | some route =>
          by_cases hv : localVersion c m < route.version
          · have hres : applyUpdatedMember hash c m =
                { c with routeCache := mapInsert c.routeCache m route,
                         routeVersions := mapInsert c.routeVersions m route.version } := by
              simp [applyUpdatedMember, h0, hpre, hl, hv]
            rw [hres]
            unfold localVersion
            rw [show ({ c with
                routeCache := mapInsert c.routeCache m route,
                routeVersions := mapInsert c.routeVersions m route.version } :
                CacheState).routeVersions = mapInsert c.routeVersions m route.version from rfl,
              mapLookup_mapInsert]
            by_cases hid : m = id
            · rw [if_pos hid]
              subst hid
              exact le_of_lt hv
            · rw [if_neg hid]
          · simp [applyUpdatedMember, h0, hpre, hl, hv]
  · intro s route nowSec nowNs cfgNs s' h hclock id
    rw [AddRoute_ok_cache s route nowSec nowNs cfgNs s' h]
    unfold localVersion
    rw [show (⟨mapInsert s.cache.routeCache route.id
        { route with
          createdAt := (if route.createdAt = 0 then nowSec else route.createdAt),
          updatedAt := nowSec, version := nowNs },
      mapInsert s.cache.routeVersions route.id nowNs,
      s.cache.lastConfigUpdate⟩ : CacheState).routeVersions =
        mapInsert s.cache.routeVersions route.id nowNs from rfl,
      mapLookup_mapInsert]
    by_cases hid : route.id = id
    · rw [if_pos hid]
      subst hid
      exact hclock
    · rw [if_neg hid]
  · intro s routeID newRoute nowSec nowNs cfgNs s' h hclock id
    obtain ⟨-, hc⟩ := UpdateRoute_ok_cache s routeID newRoute nowSec nowNs cfgNs s' h
    rw [hc]
    unfold localVersion
    rw [show (⟨mapInsert s.cache.routeCache routeID
        { newRoute with updatedAt := nowSec, version := nowNs },
      mapInsert s.cache.routeVersions routeID nowNs,
      s.cache.lastConfigUpdate⟩ : CacheState).routeVersions =
        mapInsert s.cache.routeVersions routeID nowNs from rfl,
      mapLookup_mapInsert]
    by_cases hid : routeID = id
    · rw [if_pos hid]
      subst hid
      exact hclock
    · rw [if_neg hid]

/-- Witness for the amended C3: a non-tombstone marker against an
empty hash leaves the version of `abc` in place, and a concrete
AddRoute with a fresh clock does not decrease any local version. -/
theorem applied_versions_monotone_amended_witness :
    (∀ id, localVersion wCacheState id ≤
      localVersion (applyUpdatedMember [] wCacheState "xyz") id) ∧
    ∃ s', AddRoute wRM wRoute 1 2 3 = .ok s' ∧
      ∀ id, localVersion wRM.cache id ≤ localVersion s'.cache id :=
  ⟨applied_versions_monotone_amended.1 [] wCacheState "xyz" (by decide),
    ⟨_, rfl, applied_versions_monotone_amended.2.1 wRM wRoute 1 2 3 _ rfl (by decide)⟩⟩

/-- C4: every catalog operation — AddRoute, UpdateRoute, DeleteRoute,
CREATE/UPDATE/DELETE event handling, incremental reconciliation and
full load — preserves the invariant that the cache and the per-id
version map have exactly the same key set and `versions[r.id] ==
r.version` for every cached route `r` (with the cache keyed by route
id).  Events are assumed to carry a route with a non-empty id and the
store hash to be keyed by route id, which is how every writer in the
repository produces them. -/
theorem catalog_cache_version_alignment :
    (∀ (s : RMState) (route : RouteConfig) (a b cfg : Int) (s' : RMState),
      catalogInvariant s.cache → AddRoute s route a b cfg = .ok s' →
      catalogInvariant s'.cache) ∧
    (∀ (s : RMState) (routeID : String) (newRoute : RouteConfig) (a b cfg : Int)
      (s' : RMState), catalogInvariant s.cache →
      UpdateRoute s routeID newRoute a b cfg = .ok s' → catalogInvariant s'.cache) ∧
    (∀ (s : RMState) (routeID : String) (a cfg : Int) (s' : RMState),
      catalogInvariant s.cache → DeleteRoute s routeID a cfg = .ok s' →
      catalogInvariant s'.cache) ∧
    (∀ (c : CacheState) (ev : RouteEvent) (c' : CacheState), catalogInvariant c →
      (∀ rd, ev.routeData = some rd → rd.id ≠ "") →
      handleCreateEvent c ev = .ok c' → catalogInvariant c') ∧
    (∀ (c : CacheState) (ev : RouteEvent) (c' : CacheState), catalogInvariant c →
      (∀ rd, ev.routeData = some rd → rd.id ≠ "") →
      handleUpdateEvent c ev = .ok c' → catalogInvariant c') ∧
    (∀ (c : CacheState) (ev : RouteEvent), catalogInvariant c →
      catalogInvariant (handleDeleteEvent c ev)) ∧
    (∀ s : RMState, catalogInvariant s.cache → hashKeyedById s.store.routesHash →
      catalogInvariant (loadRoutesIncremental s).cache) ∧
    (∀ (store : StoreState) (c : CacheState), hashKeyedById store.routesHash →
      catalogInvariant (loadAllRoutesFromRedis store c)) := by
  refine ⟨?_, ?_, ?_, ?_, ?_, ?_, ?_, ?_⟩
  · intro s route a b cfg s' hinv h
    rw [AddRoute_ok_cache s route a b cfg s' h]
    exact catalogInvariant_insert s.cache route.id _ s.cache.lastConfigUpdate hinv rfl
  · intro s routeID newRoute a b cfg s' hinv h
    obtain ⟨hid, hc⟩ := UpdateRoute_ok_cache s routeID newRoute a b cfg s' h
    rw [hc]
    exact catalogInvariant_insert s.cache routeID _ s.cache.lastConfigUpdate hinv hid.symm
  · intro s routeID a cfg s' hinv h
    obtain ⟨s'', heq, hc, -, -⟩ := DeleteRoute_ok_cache s routeID a cfg
    rw [heq] at h
    cases h
    rw [hc]
    exact catalogInvariant_erase s.cache routeID s.cache.lastConfigUpdate hinv
  · intro c ev c' hinv hwf h
    cases hrd : ev.routeData with
    | none => simp [handleCreateEvent, hrd] at h
    | some rd =>
        have hne : rd.id ≠ "" := hwf rd hrd
        simp [handleCreateEvent, hrd, hne] at h
        rw [← h]
        exact catalogInvariant_insert c rd.id rd c.lastConfigUpdate hinv rfl
  · intro c ev c' hinv hwf h
    cases hrd : ev.routeData with
    | none => simp [handleUpdateEvent, hrd] at h
    | some rd =>
        have hne : rd.id ≠ "" := hwf rd hrd
        by_cases hex : (mapLookup c.routeCache rd.id).isSome = true
        · simp [handleUpdateEvent, hrd, hne, hex] at h
          rw [← h]
          exact catalogInvariant_insert c rd.id rd c.lastConfigUpdate hinv rfl
        · simp [handleUpdateEvent, hrd, hne, hex] at h
          rw [← h]
          exact catalogInvariant_insert c rd.id rd c.lastConfigUpdate hinv rfl
  · intro c ev hinv
    by_cases hex : (mapLookup c.routeCache ev.routeID).isSome = true
    · have hres : handleDeleteEvent c ev =
          { c with routeCache := mapErase c.routeCache ev.routeID,
                   routeVersions := mapErase c.routeVersions ev.routeID } := by
        simp [handleDeleteEvent, hex]
      rw [hres]
      exact catalogInvariant_erase c ev.routeID c.lastConfigUpdate hinv
    · cases hrd : ev.routeData with
      | none => simpa [handleDeleteEvent, hex, hrd] using hinv
      | some rd =>
          by_cases halt : rd.id ≠ "" ∧ (mapLookup c.routeCache rd.id).isSome = true
          · have hres : handleDeleteEvent c ev =
                { c with routeCache := mapErase c.routeCache rd.id,
                         routeVersions := mapErase c.routeVersions rd.id } := by
              simp [handleDeleteEvent, hex, hrd, halt]
            rw [hres]
            exact catalogInvariant_erase c rd.id c.lastConfigUpdate hinv
          · simpa [handleDeleteEvent, hex, hrd, halt] using hinv
  · intro s hinv hhash
    by_cases hen : s.redisEnabled = false
    · simpa [loadRoutesIncremental, hen] using hinv
    · by_cases hle : s.store.configVersion ≤ s.cache.lastConfigUpdate
      · simpa [loadRoutesIncremental, hen, hle] using hinv
      · by_cases hemp : s.store.updatedSet.isEmpty = false
        · have hres : (loadRoutesIncremental s).cache =
              { (s.store.updatedSet.foldl (applyUpdatedMember s.store.routesHash) s.cache) with
                lastConfigUpdate := s.store.configVersion } := by
            simp [loadRoutesIncremental, hen, hle, hemp]
          rw [hres]
          exact catalogInvariant_foldMembers s.store.routesHash s.store.updatedSet
            s.cache hinv hhash
        · have hres : (loadRoutesIncremental s).cache =
              { (loadAllRoutesFromRedis s.store s.cache) with
                lastConfigUpdate := s.store.configVersion } := by
            simp [loadRoutesIncremental, hen, hle, hemp]
          rw [hres]
          exact catalogInvariant_loadAll s.store s.cache hhash
  · intro store c hhash
    exact catalogInvariant_loadAll store c hhash

/-- Witness for C4: deleting a (missing) id from the enabled empty
manager state keeps the cache/version alignment. -/
theorem catalog_cache_version_alignment_witness :
    ∃ s', DeleteRoute wRM "ghost" 1 2 = .ok s' ∧ catalogInvariant s'.cache := by
  have hkey : cacheKeyedById wRM.cache := fun k r h => nomatch h
  have hal : cacheVersionAligned wRM.cache := ⟨fun k => Iff.rfl, fun k r h => nomatch h⟩
  have hinv : catalogInvariant wRM.cache := ⟨hkey, hal⟩
  obtain ⟨s', heq, -, -, -⟩ := DeleteRoute_ok_cache wRM "ghost" 1 2
  exact ⟨s', heq, catalog_cache_version_alignment.2.2.1 wRM "ghost" 1 2 s' hinv heq⟩

theorem loadRoutesIncremental_noop (s : RMState)
    (h : s.store.configVersion ≤ s.cache.lastConfigUpdate) :
    loadRoutesIncremental s = s := by
  by_cases hen : s.redisEnabled = false
  · simp [loadRoutesIncremental, hen]
  · simp [loadRoutesIncremental, hen, h]

/-- C5: incremental reconciliation returns without touching the state
when the global config version from the store does not exceed the
replica's `lastConfigUpdate`, and consequently a second reconciliation
right after a first one (no interleaving mutations) changes nothing. -/
theorem loadRoutesIncremental_idempotent :
    (∀ s : RMState, s.store.configVersion ≤ s.cache.lastConfigUpdate →
      loadRoutesIncremental s = s) ∧
    (∀ s : RMState,
      loadRoutesIncremental (loadRoutesIncremental s) = loadRoutesIncremental s) := by
  refine ⟨fun s h => loadRoutesIncremental_noop s h, ?_⟩
  intro s
  by_cases hen : s.redisEnabled = false
  · have h1 : loadRoutesIncremental s = s := by simp [loadRoutesIncremental, hen]
    rw [h1]
    exact h1
  · by_cases hle : s.store.configVersion ≤ s.cache.lastConfigUpdate
    · have h1 : loadRoutesIncremental s = s := loadRoutesIncremental_noop s hle
      rw [h1]
      exact h1
    · by_cases hemp : s.store.updatedSet.isEmpty = false
      · have h1 : loadRoutesIncremental s =
            { s with
              cache := { (s.store.updatedSet.foldl (applyUpdatedMember s.store.routesHash) s.cache) with lastConfigUpdate := s.store.configVersion },
              store := { s.store with updatedSet := [] } } := by
          simp [loadRoutesIncremental, hen, hle, hemp]
        rw [h1]
        exact loadRoutesIncremental_noop _ (le_refl _)
      · have h1 : loadRoutesIncremental s =
            { s with
              cache := { (loadAllRoutesFromRedis s.store s.cache) with lastConfigUpdate := s.store.configVersion } } := by
          simp [loadRoutesIncremental, hen, hle, hemp]
        rw [h1]
        exact loadRoutesIncremental_noop _ (le_refl _)

/-- Witness for C5: on the enabled empty manager state (store version
0, `lastConfigUpdate` 0) reconciliation is the identity. -/
theorem loadRoutesIncremental_idempotent_witness :
    loadRoutesIncremental wRM = wRM :=
  loadRoutesIncremental_idempotent.1 wRM (by decide)

/-- Counterexample to C6: the PUT handler maps every `UpdateRoute`
error to status 400, so an unknown route id is answered 400, not the
claimed 404. -/
theorem updateRouteHandler_unknown_id_counterexample :
    updateRouteHandler wRM "missing" wRoute 1 2 3 = (400, wRM) ∧ (400 : Nat) ≠ 404 := by
  constructor
  · decide
  · decide

/-- C6 amended: UpdateRoute fails without changing the catalog when
the URL id is not cached or when the body's id differs from the URL
id, and the HTTP PUT handler answers an unknown route id with status
400 (it maps every UpdateRoute failure to 400), leaving the state
unchanged. -/
theorem UpdateRoute_refusals_amended :
    (∀ (s : RMState) (routeID : String) (newRoute : RouteConfig) (a b cfg : Int),
      mapLookup s.cache.routeCache routeID = none →
      ∃ msg, UpdateRoute s routeID newRoute a b cfg = .error msg) ∧
    (∀ (s : RMState) (routeID : String) (newRoute : RouteConfig) (a b cfg : Int),
      routeID ≠ newRoute.id →
      ∃ msg, UpdateRoute s routeID newRoute a b cfg = .error msg) ∧
    (∀ (s : RMState) (routeID : String) (newRoute : RouteConfig) (a b cfg : Int),
      mapLookup s.cache.routeCache routeID = none →
      updateRouteHandler s routeID newRoute a b cfg = (400, s)) := by
  have hA : ∀ (s : RMState) (routeID : String) (newRoute : RouteConfig) (a b cfg : Int),
      mapLookup s.cache.routeCache routeID = none →
      ∃ msg, UpdateRoute s routeID newRoute a b cfg = .error msg := by
    intro s routeID newRoute a b cfg h
    refine ⟨"route " ++ routeID ++ " not found", ?_⟩
    simp [UpdateRoute, h]
  refine ⟨hA, ?_, ?_⟩
  · intro s routeID newRoute a b cfg hne
    by_cases h1 : (mapLookup s.cache.routeCache routeID).isSome = false
    · exact ⟨"route " ++ routeID ++ " not found", by simp [UpdateRoute, h1]⟩
    · cases hval : validateRouteConfiguration newRoute with
      | error e => exact ⟨e, by simp [UpdateRoute, h1, hval]⟩
      | ok u => exact ⟨"route ID cannot be changed", by simp [UpdateRoute, h1, hval, hne]⟩
  · intro s routeID newRoute a b cfg h
    obtain ⟨msg, hmsg⟩ := hA s routeID newRoute a b cfg h
    simp [updateRouteHandler, hmsg]

/-- Witness for the amended C6: an unknown id refuses, a body id
differing from the URL id refuses, and the handler answers 400. -/
theorem UpdateRoute_refusals_amended_witness :
    (∃ msg, UpdateRoute wRM "missing" wRoute 1 2 3 = .error msg) ∧
    (∃ msg, UpdateRoute wRM "other" wRoute 1 2 3 = .error msg) ∧
    updateRouteHandler wRM "missing" wRoute 1 2 3 = (400, wRM) :=
  ⟨UpdateRoute_refusals_amended.1 wRM "missing" wRoute 1 2 3 (by decide),
    UpdateRoute_refusals_amended.2.1 wRM "other" wRoute 1 2 3 (by decide),
    UpdateRoute_refusals_amended.2.2 wRM "missing" wRoute 1 2 3 (by decide)⟩

/-- C7: on the authenticated gateway path, no matching route answers
404 with body `\x7b"error":"route not found"\x7d`; a sandbox route
with no healthy instance of its type answers 503; a transport failure
while forwarding answers 502; proxy and static answer 501; any other
handler value answers 500. -/
theorem dispatcher_status_mapping (cache : List (String × RouteConfig))
    (instances : List SandboxInstance) (strategy : String) (pick : Nat)
    (path method : String) (fwd : ForwardOutcome) :
    (matchRoute cache path method = none →
      dynamicRouteHandler cache instances strategy pick path method fwd =
        ⟨404, jsonError "route not found"⟩) ∧
    (∀ route, matchRoute cache path method = some route →
      (route.handler = "sandbox" →
        ((healthyCandidates instances route.sandboxType).isEmpty = true →
          (dynamicRouteHandler cache instances strategy pick path method fwd).status = 503) ∧
        ((healthyCandidates instances route.sandboxType).isEmpty = false →
          ∀ msg, fwd = .transportError msg →
            (dynamicRouteHandler cache instances strategy pick path method fwd).status = 502)) ∧
      (route.handler = "proxy" →
        (dynamicRouteHandler cache instances strategy pick path method fwd).status = 501) ∧
      (route.handler = "static" →
        (dynamicRouteHandler cache instances strategy pick path method fwd).status = 501) ∧
      (route.handler ≠ "sandbox" → route.handler ≠ "proxy" → route.handler ≠ "static" →
        (dynamicRouteHandler cache instances strategy pick path method fwd).status = 500)) := by
  constructor
  · intro hm
    simp [dynamicRouteHandler, hm]
  · intro route hm
    refine ⟨?_, ?_, ?_, ?_⟩
    · intro hh
      constructor
      · intro hempty
        simp [dynamicRouteHandler, hm, hh, handleSandboxRequest, GetHealthyInstance, hempty]
      · intro hfull msg hfwd
        simp [dynamicRouteHandler, hm, hh, handleSandboxRequest, GetHealthyInstance,
          hfull, hfwd, forwardToSandbox]
    · intro hh
      by_cases hsb : route.handler = "sandbox"
      · rw [hh] at hsb
        exact absurd hsb (by decide)
      · simp [dynamicRouteHandler, hm, hsb, hh]
    · intro hh
      by_cases hsb : route.handler = "sandbox"
      · rw [hh] at hsb
        exact absurd hsb (by decide)
      · by_cases hpx : route.handler = "proxy"
        · rw [hh] at hpx
          exact absurd hpx (by decide)
        · simp [dynamicRouteHandler, hm, hsb, hpx, hh]
    · intro h1 h2 h3
      simp [dynamicRouteHandler, hm, h1, h2, h3]

/-- Witness for C7: an empty catalog yields the literal 404 response;
a matched sandbox route with an empty pool yields 503. -/
theorem dispatcher_status_mapping_witness :
    dynamicRouteHandler [] [] "least-connections" 0 "/x" "GET" (.success 200 "ok") =
      ⟨404, jsonError "route not found"⟩ ∧
    (dynamicRouteHandler wCache [] "least-connections" 0 "/api/hello" "GET"
      (.success 200 "ok")).status = 503 :=
  ⟨(dispatcher_status_mapping [] [] "least-connections" 0 "/x" "GET"
      (.success 200 "ok")).1 (by decide),
    ((dispatcher_status_mapping wCache [] "least-connections" 0 "/api/hello" "GET"
      (.success 200 "ok")).2 wRoute (by decide)).1 (by decide) |>.1 (by decide)⟩

/-- Counterexample to C8: the wildcard fixture route omits `timeout`
(Go zero value 0), yet the dispatched client timeout is 0 seconds —
i.e. no timeout at all — not the claimed 30-second default, because
the envelope always carries a Go `int` and the type assertion
`reqData["timeout"].(int)` therefore always succeeds. -/
theorem sandbox_timeout_default_counterexample :
    sandboxClientTimeoutSeconds wRouteWild = 0 ∧ sandboxClientTimeoutSeconds wRouteWild ≠ 30 := by
  constructor
  · decide
  · decide

/-- C8 amended: the outbound client timeout of a dispatched
sandbox-handler request is always `route.timeout` seconds; the
30-second default written in `forwardToSandbox` is unreachable from
`handleSandboxRequest`, so a route without a timeout gets a zero
(disabled) client timeout. -/
theorem sandbox_timeout_amended (route : RouteConfig) :
    sandboxClientTimeoutSeconds route = route.timeout := rfl

/-- C9: DeleteRoute always succeeds — also for an id absent from the
catalog — so the admin DELETE endpoint answers 200; afterwards the id
is in neither the cache nor the version map, and with the store
enabled a DELETE event for the id is still published. -/
theorem DeleteRoute_missing_id_idempotent (s : RMState) (routeID : String)
    (nowSec cfgNs : Int) :
    ∃ s', DeleteRoute s routeID nowSec cfgNs = .ok s' ∧
      deleteRouteHandler s routeID nowSec cfgNs = (200, s') ∧
      mapLookup s'.cache.routeCache routeID = none ∧
      mapLookup s'.cache.routeVersions routeID = none ∧
      (s.redisEnabled = true →
        ∃ ev, s'.stream = s.stream ++ [ev] ∧ ev.eventType = "DELETE" ∧
          ev.routeID = routeID) := by
  obtain ⟨s', heq, hc, hstream, -⟩ := DeleteRoute_ok_cache s routeID nowSec cfgNs
  refine ⟨s', heq, ?_, ?_, ?_, ?_⟩
  · simp [deleteRouteHandler, heq]
  · rw [hc, show (⟨mapErase s.cache.routeCache routeID, mapErase s.cache.routeVersions routeID,
      s.cache.lastConfigUpdate⟩ : CacheState).routeCache = mapErase s.cache.routeCache routeID
      from rfl, mapLookup_mapErase, if_pos rfl]
  · rw [hc, show (⟨mapErase s.cache.routeCache routeID, mapErase s.cache.routeVersions routeID,
      s.cache.lastConfigUpdate⟩ : CacheState).routeVersions = mapErase s.cache.routeVersions
      routeID from rfl, mapLookup_mapErase, if_pos rfl]
  · intro hen
    exact ⟨⟨"delete-" ++ toString nowSec, "DELETE", routeID, none, nowSec, "route-manager"⟩,
      hstream hen, rfl, rfl⟩

/-- Witness for C9: deleting the absent id `gone` from the enabled
empty manager state succeeds, clears both maps and appends a DELETE
event. -/
theorem DeleteRoute_missing_id_idempotent_witness :
    ∃ s', DeleteRoute wRM "gone" 1 2 = .ok s' ∧
      deleteRouteHandler wRM "gone" 1 2 = (200, s') ∧
      mapLookup s'.cache.routeCache "gone" = none ∧
      ∃ ev, s'.stream = wRM.stream ++ [ev] ∧ ev.eventType = "DELETE" ∧
        ev.routeID = "gone" := by
  obtain ⟨s', h1, h2, h3, -, h5⟩ := DeleteRoute_missing_id_idempotent wRM "gone" 1 2
  exact ⟨s', h1, h2, h3, h5 rfl⟩

/-- C10: authentication is fail-closed — when the primary key
(`gateway_key` for the gateway listener, `admin_key` for the admin
listener) and the legacy fallback `key` are all empty, every request
is rejected with 401 regardless of the `X-Api-Key` header it carries. -/
theorem auth_fail_closed (config : AppConfig) (apiKey : String)
    (hg : config.gatewayKey = "") (ha : config.adminKey = "") (hk : config.key = "") :
    authenticateGatewayRequest config apiKey = false ∧
    GatewayAuth config apiKey = .abort 401 (jsonError "invalid gateway api key") ∧
    AdminAuth config apiKey = .abort 401 (jsonError "invalid admin api key") ∧
    (∀ (cache : List (String × RouteConfig)) (instances : List SandboxInstance)
      (strategy : String) (pick : Nat) (path method : String) (fwd : ForwardOutcome),
      authenticatedRouteHandler config apiKey cache instances strategy pick path method fwd =
        ⟨401, jsonError "invalid gateway api key"⟩) := by
  have hauth : authenticateGatewayRequest config apiKey = false := by
    simp [authenticateGatewayRequest, hg, hk]
  refine ⟨hauth, ?_, ?_, ?_⟩
  · simp [GatewayAuth, hg, hk]
  · simp [AdminAuth, ha, hk]
  · intro cache instances strategy pick path method fwd
    simp [authenticatedRouteHandler, hauth]

/-- Witness for C10: with every configured key empty, a request
carrying the header `secret` is rejected on both listeners. -/
theorem auth_fail_closed_witness :
    authenticateGatewayRequest ⟨8195, true, "", "", ""⟩ "secret" = false ∧
    GatewayAuth ⟨8195, true, "", "", ""⟩ "secret" =
      .abort 401 (jsonError "invalid gateway api key") ∧
    AdminAuth ⟨8195, true, "", "", ""⟩ "secret" =
      .abort 401 (jsonError "invalid admin api key") := by
  obtain ⟨h1, h2, h3, -⟩ := auth_fail_closed ⟨8195, true, "", "", ""⟩ "secret" rfl rfl rfl
  exact ⟨h1, h2, h3⟩

end DifyRouter
